import Mathlib

/-!
Shallow embedding of the location-fetcher repository
(src/services/data_handler.py, src/services/fetcher.py, src/main.py)
and proofs about its specification claims.

Conventions of the embedding:
- a Python dict of JSON data is modelled by a structure holding the fields
  the code reads; an optional field models a key that may be absent;
- a tag mapping is an association list `List (String × String)`; Python
  `"name" in tags` is `(tags.lookup "name").isSome`;
- file I/O is made explicit: the cache directory is an association list
  from filename to file contents, passed in and returned;
- the network is an oracle mapping a query string and an attempt index to
  the outcome of that HTTP POST.
-/

namespace LocationFetcher

/-- Element record shape consumed and produced by the system:
`type, id, lat?, lon?, tags?`. Coordinates are carried as literal text
(the code never computes with them). `tags = none` models an element
without a `tags` key. -/
structure Element where
  etype : String
  eid : Int
  lat : Option String
  lon : Option String
  tags : Option (List (String × String))
deriving DecidableEq

/-- Python `"tags" in elem and "name" in elem["tags"]`: the filter kept by
`filter_named_locations` (src/services/data_handler.py lines 51-54). -/
def hasTagsWithName (e : Element) : Bool :=
  match e.tags with
  | some ts => (ts.lookup "name").isSome
  | none => false

/-- Python `"tags" not in elem or "name" not in elem["tags"]`: the filter kept
by `filter_unnamed_locations` (src/services/data_handler.py lines 86-89). -/
def lacksTagsOrName (e : Element) : Bool :=
  match e.tags with
  | none => true
  | some ts => (ts.lookup "name").isNone

/-- Data loaded from a raw JSON file, as read by the filter operations:
the optional `version` value (carried verbatim as text; `data.get` with
default 0.6 applies when absent) and the `elements` array. -/
structure InputData where
  version : Option String
  elements : List Element
deriving DecidableEq

/-- The filtered-output dict built by `filter_named_locations` and
`filter_unnamed_locations` before it is saved. -/
structure FilteredData where
  version : String
  generator : String
  original_file : String
  filter_type : String
  original_count : Nat
  filtered_count : Nat
  elements : List Element
deriving DecidableEq

/-- Pure core of `LocationDataHandler.filter_named_locations`
(src/services/data_handler.py lines 39-76): the loaded file contents go in,
the filtered dict that gets saved comes out. -/
def filter_named_locations (filename : String) (data : InputData) : FilteredData :=
  let original_count := data.elements.length
  let filtered_elements := data.elements.filter (fun elem => hasTagsWithName elem)
  { version := data.version.getD "0.6"
    generator := "Filtered Data"
    original_file := filename
    filter_type := "named_only"
    original_count := original_count
    filtered_count := filtered_elements.length
    elements := filtered_elements }

/-- Pure core of `LocationDataHandler.filter_unnamed_locations`
(src/services/data_handler.py lines 78-111). -/
def filter_unnamed_locations (filename : String) (data : InputData) : FilteredData :=
  let original_count := data.elements.length
  let filtered_elements := data.elements.filter (fun elem => lacksTagsOrName elem)
  { version := data.version.getD "0.6"
    generator := "Filtered Data"
    original_file := filename
    filter_type := "unnamed_only"
    original_count := original_count
    filtered_count := filtered_elements.length
    elements := filtered_elements }

/-- Spec-side reading of "possessing a tags mapping that includes a name
key", stated independently of the Boolean filters. -/
def HasNameKey (e : Element) : Prop :=
  ∃ ts v, e.tags = some ts ∧ ts.lookup "name" = some v

/-! Fetcher (src/services/fetcher.py). A bounding box is four coordinates
(min-lat, min-lon, max-lat, max-lon); the source stores them as float
tuples with integral values, embedded here as integers and rendered with a
trailing ".0" exactly where Python would interpolate the float into the
query text. -/

/-- Bounding box tuple (min_lat, min_lon, max_lat, max_lon). -/
abbrev Subarea := Int × Int × Int × Int

/-- The fixed region configuration `self.areas` of `OverpassFetcher.__init__`:
region name to (bounds, subareas). -/
def areas : List (String × (Subarea × List Subarea)) :=
  [("northern_europe",
    ((55, 4, 71, 32),
     [(55, 4, 63, 18), (63, 4, 71, 18), (55, 18, 63, 32), (63, 18, 71, 32)])),
   ("central_europe",
    ((45, 6, 55, 24),
     [(45, 6, 50, 15), (50, 6, 55, 15), (45, 15, 50, 24), (50, 15, 55, 24)])),
   ("southern_europe",
    ((35, -10, 45, 28),
     [(35, -10, 40, 9), (40, -10, 45, 9), (35, 9, 40, 28), (40, 9, 45, 28)]))]

/-- A single-quote character, used by the Python list repr in the
unknown-area error message. -/
def sq : String := String.singleton (Char.ofNat 39)

/-- Rendering of Python `list(self.areas.keys())` inside the unknown-area
error message. -/
def availableAreasMsg : String :=
  "[" ++ String.intercalate ", " (areas.map (fun a => sq ++ a.1 ++ sq)) ++ "]"

/-- `OverpassFetcher.get_subareas` (src/services/fetcher.py lines 48-52):
raises ValueError for an unknown area, embedded as `Except.error` carrying
the message text. -/
def get_subareas (area_name : String) : Except String (List Subarea) :=
  match areas.lookup area_name with
  | none =>
    .error ("Unknown area: " ++ area_name ++ ". Available areas: " ++ availableAreasMsg)
  | some a => .ok a.2

/-- The `tag_mapping` dict of `OverpassFetcher.get_tag_key`. -/
def tag_mapping : List (String × String) :=
  [("place_of_worship", "amenity"), ("police", "amenity"), ("park", "leisure"),
   ("school", "amenity"), ("hospital", "amenity"), ("restaurant", "amenity")]

/-- `OverpassFetcher.get_tag_key`: mapped key, or the raw string as default. -/
def get_tag_key (node_type : String) : String :=
  (tag_mapping.lookup node_type).getD node_type

/-- The `value_mapping` dict of `OverpassFetcher.get_tag_value` (identity on
the six known feature types). -/
def value_mapping : List (String × String) :=
  [("place_of_worship", "place_of_worship"), ("police", "police"),
   ("park", "park"), ("school", "school"), ("hospital", "hospital"),
   ("restaurant", "restaurant")]

/-- `OverpassFetcher.get_tag_value`: mapped value, or the raw string. -/
def get_tag_value (node_type : String) : String :=
  (value_mapping.lookup node_type).getD node_type

/-- Python str() of the float coordinate (integral-valued floats print with
a trailing ".0"). -/
def fmtCoord (i : Int) : String := toString i ++ ".0"

/-- `OverpassFetcher.build_query` (src/services/fetcher.py lines 76-93):
the query text with the tag pair and bounding box interpolated, with the
surrounding layout whitespace of the triple-quoted f-string normalised
away (no claim depends on whitespace). -/
def build_query (node_type : String) (bounds : Subarea) : String :=
  match bounds with
  | (min_lat, min_lon, max_lat, max_lon) =>
    let sel := "[\"" ++ get_tag_key node_type ++ "\"=\"" ++ get_tag_value node_type ++ "\"]"
    let bbox := "(" ++ fmtCoord min_lat ++ "," ++ fmtCoord min_lon ++ ","
      ++ fmtCoord max_lat ++ "," ++ fmtCoord max_lon ++ ")"
    "[out:json][timeout:300];(node" ++ sel ++ bbox ++ ";way" ++ sel ++ bbox
      ++ ";relation" ++ sel ++ bbox ++ ";);out body;>;out skel qt;"

/-- A parsed JSON document as the fetch path reads it: only its
`elements` key is ever accessed, and the key may be absent. -/
structure JsonDoc where
  elements : Option (List Element)
deriving DecidableEq

/-- Outcome of one HTTP POST attempt, as distinguished by the code:
a `requests.exceptions.RequestException` (connection error, timeout, or
`raise_for_status` on a non-success status), a fully received body that
`json.loads` rejects, or a body that parses to a document. -/
inductive AttemptOutcome where
  | transportError
  | malformedBody
  | success (doc : JsonDoc)
deriving DecidableEq

/-- How one call of `fetch_with_progress` ends: a parsed document returned,
the final `RequestException` re-raised after the retry budget, a
`json.JSONDecodeError` propagating out of `json.loads(content)` (it is not a
`RequestException`, so the except clause does not catch it), or Python's
implicit None return when `retries = 0` makes the loop body never run. -/
inductive FetchResult where
  | ok (doc : JsonDoc)
  | requestException
  | jsonError
  | noneResult
deriving DecidableEq

/-- The retry loop of `OverpassFetcher.fetch_with_progress`
(src/services/fetcher.py lines 95-130), traversing the list of remaining
attempt indices (`range(retries)`); the Python guard
`attempt < retries - 1` holds exactly when the remaining list is nonempty.
Returns (result, number of requests issued, list of delays slept between
attempts, in order). -/
def fetchGo (oracle : Nat → AttemptOutcome) (delay : Nat) :
    List Nat → FetchResult × Nat × List Nat
  | [] => (.noneResult, 0, [])
  | [attempt] =>
    match oracle attempt with
    | .success doc => (.ok doc, 1, [])
    | .malformedBody => (.jsonError, 1, [])
    | .transportError => (.requestException, 1, [])
  | attempt :: r :: rs =>
    match oracle attempt with
    | .success doc => (.ok doc, 1, [])
    | .malformedBody => (.jsonError, 1, [])
    | .transportError =>
      let tail := fetchGo oracle delay (r :: rs)
      (tail.1, tail.2.1 + 1, delay :: tail.2.2)

/-- `OverpassFetcher.fetch_with_progress(query, retries, delay)`: the network
is abstracted into an oracle from attempt index to outcome (the query is
fixed for one call). Source defaults are retries = 3, delay = 5. -/
def fetch_with_progress (oracle : Nat → AttemptOutcome) (retries delay : Nat) :
    FetchResult × Nat × List Nat :=
  fetchGo oracle delay (List.range retries)

/-! Serialization of the combined result written and returned by
`fetch_data`. `json.dump(combined_data, f)` and the returned
`json.dumps(combined_data)` use identical default arguments, so the file
contents and the return value are the same text; both are modelled by
`dumpsCombined`. -/

/-- JSON string literal (tag texts in this model carry no characters that
would need escaping). -/
def dumpStr (s : String) : String := "\"" ++ s ++ "\""

/-- One key-value pair of a tags object, with json.dumps default separators. -/
def dumpTagPair (kv : String × String) : String :=
  dumpStr kv.1 ++ ": " ++ dumpStr kv.2

/-- A tags object. -/
def dumpTags (ts : List (String × String)) : String :=
  "\x7b" ++ String.intercalate ", " (ts.map dumpTagPair) ++ "\x7d"

/-- One element object, fields in their insertion order, absent keys
omitted. -/
def dumpElement (e : Element) : String :=
  let fields :=
    [dumpStr "type" ++ ": " ++ dumpStr e.etype,
     dumpStr "id" ++ ": " ++ toString e.eid]
    ++ (match e.lat with | some x => [dumpStr "lat" ++ ": " ++ x] | none => [])
    ++ (match e.lon with | some x => [dumpStr "lon" ++ ": " ++ x] | none => [])
    ++ (match e.tags with | some ts => [dumpStr "tags" ++ ": " ++ dumpTags ts] | none => [])
  "\x7b" ++ String.intercalate ", " fields ++ "\x7d"

/-- json.dumps of the `combined_data` dict of `fetch_data`
(src/services/fetcher.py lines 162-171): fixed version 0.6 and generator
label, then the accumulated elements. -/
def dumpsCombined (elements : List Element) : String :=
  "\x7b" ++ dumpStr "version" ++ ": 0.6, " ++ dumpStr "generator" ++ ": "
    ++ dumpStr "Overpass API" ++ ", " ++ dumpStr "elements" ++ ": ["
    ++ String.intercalate ", " (elements.map dumpElement) ++ "]\x7d"

/-- The cache directory contents: filename to file text. -/
abbrev Cache := List (String × String)

/-- The network as seen by `fetch_data`: for each query text, an oracle
giving the outcome of each POST attempt with that query. -/
abbrev Network := String → Nat → AttemptOutcome

/-- The cache filename of `fetch_data`
(src/services/fetcher.py line 133): a pure function of the cache directory,
feature type, region name and current calendar date. -/
def cacheKey (cache_dir node_type area_name date : String) : String :=
  cache_dir ++ "/" ++ node_type ++ "_" ++ area_name ++ "_" ++ date ++ ".json"

/-- The subarea loop of `fetch_data` (src/services/fetcher.py lines
146-160): each tile is fetched with `fetch_with_progress(query)` (source
defaults retries = 3, delay = 5); on success `data.get("elements", [])` is
appended to the accumulator, any exception is caught by
`except Exception: continue` and the tile is skipped. Returns the
accumulated elements and the total number of requests issued. -/
def fetchTiles (net : Network) (node_type : String) :
    List Subarea → List Element × Nat
  | [] => ([], 0)
  | sub :: rest =>
    let r := fetch_with_progress (net (build_query node_type sub)) 3 5
    let tail := fetchTiles net node_type rest
    match r.1 with
    | .ok doc => (doc.elements.getD [] ++ tail.1, r.2.1 + tail.2)
    | _ => (tail.1, r.2.1 + tail.2)

instance exceptDecEq {ε α : Type} [DecidableEq ε] [DecidableEq α] :
    DecidableEq (Except ε α) := fun a b =>
  match a, b with
  | .ok x, .ok y =>
    if h : x = y then .isTrue (by rw [h])
    else .isFalse (by intro hc; cases hc; exact h rfl)
  | .ok _, .error _ => .isFalse (by intro hc; cases hc)
  | .error _, .ok _ => .isFalse (by intro hc; cases hc)
  | .error x, .error y =>
    if h : x = y then .isTrue (by rw [h])
    else .isFalse (by intro hc; cases hc; exact h rfl)

/-- What one `fetch_data` call produces: the returned string (or the
ValueError text of an unknown area), the cache directory afterwards, and
how many network requests were issued. -/
structure FetchOutcome where
  result : Except String String
  cache : Cache
  requests : Nat
deriving DecidableEq

/-- `OverpassFetcher.fetch_data(node_type, area_name)`
(src/services/fetcher.py lines 132-171). The current date and the cache
directory state are explicit inputs. In source order: build the cache
filename; if the file exists return its contents verbatim (zero network
requests); otherwise validate the area (ValueError propagates), fetch every
subarea tile skipping failed ones, serialize, write the cache file and
return the serialized text. -/
def fetch_data (net : Network) (node_type area_name date cache_dir : String)
    (cache : Cache) : FetchOutcome :=
  let cache_file := cacheKey cache_dir node_type area_name date
  match cache.lookup cache_file with
  | some contents => ⟨.ok contents, cache, 0⟩
  | none =>
    match get_subareas area_name with
    | .error msg => ⟨.error msg, cache, 0⟩
    | .ok subareas =>
      let fetched := fetchTiles net node_type subareas
      let contents := dumpsCombined fetched.1
      ⟨.ok contents, (cache_file, contents) :: cache, fetched.2⟩

/-! Directory counting (src/services/data_handler.py lines 121-155). -/

/-- What `json.load` does to one file of a directory: either it raises
`json.JSONDecodeError`, or it yields a document (whose `elements` key may
be absent, in which case `data.get("elements", [])` falls back to `[]`). -/
inductive FileContent where
  | malformed
  | parsed (doc : JsonDoc)
deriving DecidableEq

/-- One directory's part of the `counts` dict: running total and the
per-file entries in iteration order. -/
structure DirCounts where
  total_objects : Nat
  files : List (String × Nat)
deriving DecidableEq

/-- The per-directory loop of `count_objects`: a parsed file contributes
`len(data.get("elements", []))` to its entry and the total; a file whose
parse raises `json.JSONDecodeError` gets entry 0 and leaves the total
unchanged. -/
def countDirLoop : List (String × FileContent) → DirCounts → DirCounts
  | [], acc => acc
  | (name, content) :: rest, acc =>
    match content with
    | .parsed doc =>
      let n := (doc.elements.getD []).length
      countDirLoop rest ⟨acc.total_objects + n, acc.files ++ [(name, n)]⟩
    | .malformed =>
      countDirLoop rest ⟨acc.total_objects, acc.files ++ [(name, 0)]⟩

/-- `LocationDataHandler.count_objects`: both directory loops run over the
raw and the filtered data directory listings, each starting from the empty
counts. -/
def count_objects (raw filtered : List (String × FileContent)) :
    DirCounts × DirCounts :=
  (countDirLoop raw ⟨0, []⟩, countDirLoop filtered ⟨0, []⟩)

/-- Boolean test that an element carries a non-empty `name` tag, used by the
modelled statistics operation. -/
def nameTagNonEmpty (e : Element) : Bool :=
  match e.tags with
  | some ts =>
    match ts.lookup "name" with
    | some v => !(v == "")
    | none => false
  | none => false

/-- Modelled from the spec: `LocationDataHandler.get_statistics` is invoked
in src/main.py (analyze_example) but its definition is absent from
src/services/data_handler.py. Per the spec, `statistics(result_set)` returns
`total_elements` (the element count) and `elements_with_names` (the count of
elements with a non-empty `name` tag). -/
def get_statistics (data : InputData) : Nat × Nat :=
  (data.elements.length,
   (data.elements.filter (fun e => nameTagNonEmpty e)).length)

/-- Spec-side reading of an element "whose name tag is present and
non-empty". -/
def NameNonEmpty (e : Element) : Prop :=
  ∃ ts v, e.tags = some ts ∧ ts.lookup "name" = some v ∧ v ≠ ""

/-- Follows the spec's words for the multi-tile accumulation: each tile, in
configuration order, contributes its elements when its fetch succeeds and
is skipped (contributes nothing) when its fetch fails. Stated independently
of the loop in `fetchTiles`, to be compared with it. -/
def specSkipFailedTiles (net : Network) (node_type : String)
    (subs : List Subarea) : List Element :=
  (subs.map (fun sub =>
    match (fetch_with_progress (net (build_query node_type sub)) 3 5).1 with
    | .ok doc => doc.elements.getD []
    | _ => [])).flatten

/-- Per-file count as the spec describes it: a file that parses counts its
elements (zero when the `elements` key is absent), a file that fails to
parse counts zero. -/
def fileCount : FileContent → Nat
  | .malformed => 0
  | .parsed doc => (doc.elements.getD []).length

/-- Oracle for which every attempt yields a body that fails to parse. -/
def c4WitnessOracle : Nat → AttemptOutcome := fun _ => AttemptOutcome.malformedBody

/-- Oracle: malformed body on the first attempt, parsable success after. -/
def c4MalOracle : Nat → AttemptOutcome := fun n =>
  if n = 0 then AttemptOutcome.malformedBody else AttemptOutcome.success ⟨some []⟩

/-- Oracle: transport failure on the first attempt, parsable success after. -/
def c4TransportOracle : Nat → AttemptOutcome := fun n =>
  if n = 0 then AttemptOutcome.transportError else AttemptOutcome.success ⟨some []⟩

/-- A sample element used by concrete scenarios. -/
def c2Elem : Element :=
  ⟨"node", 1, some "60.0", some "10.0", some [("name", "Hospital A")]⟩

/-- A network where the second northern-europe tile always fails at
transport level and every other query succeeds with one element. -/
def c2Net : Network := fun q _ =>
  if q = build_query "hospital" (63, 4, 71, 18) then AttemptOutcome.transportError
  else AttemptOutcome.success ⟨some [c2Elem]⟩

/-- A network where every request succeeds with an empty element list. -/
def c5Net : Network := fun _ _ => AttemptOutcome.success ⟨some []⟩

/-- A network where every request fails at transport level. -/
def c7Net : Network := fun _ _ => AttemptOutcome.transportError

/-- A cache directory already holding a file whose name is the cache key of
feature "hospital", region "atlantis", date 20250224. -/
def c7Cache : Cache := [("data_cache/hospital_atlantis_20250224.json", "cached-text")]

/-! Helper lemmas. -/

theorem lacksTagsOrName_eq_not (e : Element) :
    lacksTagsOrName e = !hasTagsWithName e := by
  obtain ⟨t, i, la, lo, tags⟩ := e
  cases tags with
  | none => rfl
  | some ts =>
    show (ts.lookup "name").isNone = !(ts.lookup "name").isSome
    cases ts.lookup "name" <;> rfl

theorem hasTagsWithName_iff (e : Element) :
    hasTagsWithName e = true ↔ HasNameKey e := by
  obtain ⟨t, i, la, lo, tags⟩ := e
  cases tags with
  | none =>
    constructor
    · intro hc
      exact Bool.noConfusion hc
    · rintro ⟨ts, v, hts, hv⟩
      exact Option.noConfusion hts
  | some ts =>
    show (ts.lookup "name").isSome = true ↔ _
    simp only [HasNameKey, Option.isSome_iff_exists]
    constructor
    · rintro ⟨v, hv⟩
      exact ⟨ts, v, rfl, hv⟩
    · rintro ⟨ts2, v, hts, hv⟩
      cases hts
      exact ⟨v, hv⟩

theorem lacksTagsOrName_iff (e : Element) :
    lacksTagsOrName e = true ↔ ¬ HasNameKey e := by
  rw [lacksTagsOrName_eq_not, ← hasTagsWithName_iff]
  simp

theorem nameTagNonEmpty_iff (e : Element) :
    nameTagNonEmpty e = true ↔ NameNonEmpty e := by
  obtain ⟨t, i, la, lo, tags⟩ := e
  cases tags with
  | none =>
    constructor
    · intro hc
      exact Bool.noConfusion hc
    · rintro ⟨ts, v, hts, -⟩
      exact Option.noConfusion hts
  | some ts =>
    cases hlk : ts.lookup "name" with
    | none =>
      simp only [nameTagNonEmpty, hlk]
      constructor
      · intro hc
        exact Bool.noConfusion hc
      · rintro ⟨ts2, v, hts, hv, -⟩
        cases hts
        rw [hlk] at hv
        exact Option.noConfusion hv
    | some v =>
      simp only [nameTagNonEmpty, hlk]
      constructor
      · intro h
        refine ⟨ts, v, rfl, hlk, ?_⟩
        intro hv
        subst hv
        simp at h
      · rintro ⟨ts2, w, hts, hw, hne⟩
        cases hts
        rw [hlk] at hw
        cases hw
        simp [hne]

theorem countDirLoop_spec (files : List (String × FileContent)) (acc : DirCounts) :
    countDirLoop files acc =
      ⟨acc.total_objects + (files.map (fun f => fileCount f.2)).sum,
       acc.files ++ files.map (fun f => (f.1, fileCount f.2))⟩ := by
  induction files generalizing acc with
  | nil => simp [countDirLoop]
  | cons f rest ih =>
    obtain ⟨name, content⟩ := f
    cases content with
    | parsed doc =>
      simp only [countDirLoop, ih, List.map_cons, List.sum_cons, fileCount,
        DirCounts.mk.injEq]
      exact ⟨by omega, by simp⟩
    | malformed =>
      simp only [countDirLoop, ih, List.map_cons, List.sum_cons, fileCount,
        DirCounts.mk.injEq]
      exact ⟨by omega, by simp⟩

theorem fetchTiles_spec (net : Network) (node_type : String)
    (subs : List Subarea) :
    (fetchTiles net node_type subs).1 = specSkipFailedTiles net node_type subs := by
  induction subs with
  | nil => simp [fetchTiles, specSkipFailedTiles]
  | cons sub rest ih =>
    simp only [fetchTiles, specSkipFailedTiles, List.map_cons, List.flatten_cons]
    cases h : (fetch_with_progress (net (build_query node_type sub)) 3 5).1 with
    | ok doc =>
      simp only [h]
      rw [ih]
      rfl
    | requestException => simp only [h]; rw [ih]; rfl
    | jsonError => simp only [h]; rw [ih]; rfl
    | noneResult => simp only [h]; rw [ih]; rfl

theorem fetchGo_cons_success (oracle : Nat → AttemptOutcome) (d k : Nat)
    (l2 : List Nat) (doc : JsonDoc) (hk : oracle k = .success doc) :
    fetchGo oracle d (k :: l2) = (.ok doc, 1, []) := by
  cases l2 <;> simp [fetchGo, hk]

theorem fetchGo_cons_malformed (oracle : Nat → AttemptOutcome) (d k : Nat)
    (l2 : List Nat) (hk : oracle k = .malformedBody) :
    fetchGo oracle d (k :: l2) = (.jsonError, 1, []) := by
  cases l2 <;> simp [fetchGo, hk]

theorem fetchGo_cons_transport (oracle : Nat → AttemptOutcome) (d a r : Nat)
    (rs : List Nat) (ha : oracle a = .transportError) :
    fetchGo oracle d (a :: r :: rs) =
      ((fetchGo oracle d (r :: rs)).1,
       (fetchGo oracle d (r :: rs)).2.1 + 1,
       d :: (fetchGo oracle d (r :: rs)).2.2) := by
  simp [fetchGo, ha]

theorem fetchGo_success (oracle : Nat → AttemptOutcome) (d : Nat) (doc : JsonDoc)
    (l1 : List Nat) (k : Nat) (l2 : List Nat)
    (h1 : ∀ j ∈ l1, oracle j = .transportError) (hk : oracle k = .success doc) :
    fetchGo oracle d (l1 ++ k :: l2) =
      (.ok doc, l1.length + 1, List.replicate l1.length d) := by
  induction l1 with
  | nil =>
    rw [List.nil_append, fetchGo_cons_success oracle d k l2 doc hk]
    simp
  | cons a t ih =>
    have ha := h1 a (List.mem_cons_self a t)
    have ih2 := ih (fun j hj => h1 j (List.mem_cons_of_mem a hj))
    cases hsplit : t ++ k :: l2 with
    | nil => exact absurd hsplit (by simp)
    | cons r rs =>
      rw [List.cons_append, hsplit, fetchGo_cons_transport oracle d a r rs ha,
        ← hsplit, ih2]
      simp [List.replicate_succ]

theorem fetchGo_malformed (oracle : Nat → AttemptOutcome) (d : Nat)
    (l1 : List Nat) (k : Nat) (l2 : List Nat)
    (h1 : ∀ j ∈ l1, oracle j = .transportError) (hk : oracle k = .malformedBody) :
    fetchGo oracle d (l1 ++ k :: l2) =
      (.jsonError, l1.length + 1, List.replicate l1.length d) := by
  induction l1 with
  | nil =>
    rw [List.nil_append, fetchGo_cons_malformed oracle d k l2 hk]
    simp
  | cons a t ih =>
    have ha := h1 a (List.mem_cons_self a t)
    have ih2 := ih (fun j hj => h1 j (List.mem_cons_of_mem a hj))
    cases hsplit : t ++ k :: l2 with
    | nil => exact absurd hsplit (by simp)
    | cons r rs =>
      rw [List.cons_append, hsplit, fetchGo_cons_transport oracle d a r rs ha,
        ← hsplit, ih2]
      simp [List.replicate_succ]

theorem fetchGo_allFail (oracle : Nat → AttemptOutcome) (d : Nat)
    (l : List Nat) (hne : l ≠ [])
    (h1 : ∀ j ∈ l, oracle j = .transportError) :
    fetchGo oracle d l =
      (.requestException, l.length, List.replicate (l.length - 1) d) := by
  induction l with
  | nil => exact absurd rfl hne
  | cons a t ih =>
    have ha := h1 a (List.mem_cons_self a t)
    cases t with
    | nil => simp [fetchGo, ha]
    | cons r rs =>
      have ih2 := ih (by simp) (fun j hj => h1 j (List.mem_cons_of_mem a hj))
      rw [fetchGo_cons_transport oracle d a r rs ha, ih2]
      simp [List.replicate_succ]

theorem fetchGo_reqExn_inv (oracle : Nat → AttemptOutcome) (d : Nat)
    (l : List Nat) (hres : (fetchGo oracle d l).1 = .requestException) :
    ∀ j ∈ l, oracle j = .transportError := by
  induction l with
  | nil => intro j hj; exact absurd hj (by simp)
  | cons a t ih =>
    intro j hj
    cases h : oracle a with
    | success doc =>
      rw [fetchGo_cons_success oracle d a t doc h] at hres
      exact FetchResult.noConfusion hres
    | malformedBody =>
      rw [fetchGo_cons_malformed oracle d a t h] at hres
      exact FetchResult.noConfusion hres
    | transportError =>
      cases t with
      | nil =>
        rcases List.mem_singleton.mp hj with rfl
        exact h
      | cons r rs =>
        rw [fetchGo_cons_transport oracle d a r rs h] at hres
        rcases List.mem_cons.mp hj with rfl | hj2
        · exact h
        · exact ih hres j hj2

theorem fetchGo_requests_le (oracle : Nat → AttemptOutcome) (d : Nat)
    (l : List Nat) : (fetchGo oracle d l).2.1 ≤ l.length := by
  induction l with
  | nil => simp [fetchGo]
  | cons a t ih =>
    cases h : oracle a with
    | success doc =>
      rw [fetchGo_cons_success oracle d a t doc h]
      simp
    | malformedBody =>
      rw [fetchGo_cons_malformed oracle d a t h]
      simp
    | transportError =>
      cases t with
      | nil => simp [fetchGo, h]
      | cons r rs =>
        rw [fetchGo_cons_transport oracle d a r rs h]
        have := ih
        simp only [List.length_cons] at this ⊢
        show (fetchGo oracle d (r :: rs)).2.1 + 1 ≤ rs.length + 1 + 1
        omega

theorem fetchGo_requests_pos (oracle : Nat → AttemptOutcome) (d : Nat)
    (l : List Nat) (hne : l ≠ []) : 1 ≤ (fetchGo oracle d l).2.1 := by
  cases l with
  | nil => exact absurd rfl hne
  | cons a t =>
    cases h : oracle a with
    | success doc =>
      rw [fetchGo_cons_success oracle d a t doc h]
    | malformedBody =>
      rw [fetchGo_cons_malformed oracle d a t h]
    | transportError =>
      cases t with
      | nil => simp [fetchGo, h]
      | cons r rs =>
        rw [fetchGo_cons_transport oracle d a r rs h]
        show 1 ≤ (fetchGo oracle d (r :: rs)).2.1 + 1
        omega

theorem fetchGo_sleeps (oracle : Nat → AttemptOutcome) (d : Nat)
    (l : List Nat) :
    (fetchGo oracle d l).2.2 =
      List.replicate ((fetchGo oracle d l).2.1 - 1) d := by
  induction l with
  | nil => simp [fetchGo]
  | cons a t ih =>
    cases h : oracle a with
    | success doc =>
      rw [fetchGo_cons_success oracle d a t doc h]
      simp
    | malformedBody =>
      rw [fetchGo_cons_malformed oracle d a t h]
      simp
    | transportError =>
      cases t with
      | nil => simp [fetchGo, h]
      | cons r rs =>
        rw [fetchGo_cons_transport oracle d a r rs h]
        show d :: (fetchGo oracle d (r :: rs)).2.2 =
          List.replicate ((fetchGo oracle d (r :: rs)).2.1 + 1 - 1) d
        have hpos := fetchGo_requests_pos oracle d (r :: rs) (by simp)
        obtain ⟨m, hm⟩ := Nat.exists_eq_add_of_le hpos
        rw [Nat.add_sub_cancel, ih, hm, Nat.add_comm 1 m, Nat.add_sub_cancel,
          List.replicate_succ]


theorem sum_fileCount_parsed_only (l : List (String × FileContent)) :
    (l.map (fun f => fileCount f.2)).sum =
      ((l.filter (fun f =>
          match f.2 with
          | FileContent.malformed => false
          | FileContent.parsed _ => true)).map (fun f => fileCount f.2)).sum := by
  induction l with
  | nil => rfl
  | cons f rest ih =>
    obtain ⟨name, content⟩ := f
    cases content with
    | malformed => simpa [fileCount] using ih
    | parsed doc => simpa [fileCount] using ih

/-! Claim theorems. -/

/-- C1: for every result set, the elements kept by `filter_named_locations`
and by `filter_unnamed_locations` together contain exactly the input
elements (their concatenation is a permutation of the input: nothing lost
or duplicated), the two partitions are disjoint, and each partition is a
sublist of the input (original relative order preserved). -/
theorem c1_filter_partition (filename : String) (data : InputData) :
    List.Perm ((filter_named_locations filename data).elements ++
        (filter_unnamed_locations filename data).elements) data.elements
    ∧ (filter_named_locations filename data).elements.Sublist data.elements
    ∧ (filter_unnamed_locations filename data).elements.Sublist data.elements
    ∧ ∀ e, e ∈ (filter_named_locations filename data).elements →
        e ∉ (filter_unnamed_locations filename data).elements := by
  have hn : (filter_named_locations filename data).elements
      = data.elements.filter (fun e => hasTagsWithName e) := rfl
  have hu : (filter_unnamed_locations filename data).elements
      = data.elements.filter (fun e => lacksTagsOrName e) := rfl
  have hcompl : (fun e => lacksTagsOrName e) = (fun e => !hasTagsWithName e) :=
    funext lacksTagsOrName_eq_not
  refine ⟨?_, ?_, ?_, ?_⟩
  · rw [hn, hu, hcompl]
    exact List.filter_append_perm _ data.elements
  · rw [hn]
    exact List.filter_sublist _
  · rw [hu]
    exact List.filter_sublist _
  · intro e hne hue
    rw [hn, List.mem_filter] at hne
    rw [hu, hcompl, List.mem_filter] at hue
    exact absurd hue.2 (by simp [hne.2])

/-- C6: `filter_named_locations` keeps exactly the elements whose tags
mapping includes a "name" key and `filter_unnamed_locations` keeps exactly
the complement, both as order-preserving sublists; each output header
records the source filename, the filter kind, the input element count as
`original_count` and the output element count as `filtered_count`. -/
theorem c6_filter_contents_and_header (filename : String) (data : InputData) :
    (∀ e, e ∈ (filter_named_locations filename data).elements ↔
        e ∈ data.elements ∧ HasNameKey e)
    ∧ (∀ e, e ∈ (filter_unnamed_locations filename data).elements ↔
        e ∈ data.elements ∧ ¬ HasNameKey e)
    ∧ (filter_named_locations filename data).elements.Sublist data.elements
    ∧ (filter_unnamed_locations filename data).elements.Sublist data.elements
    ∧ (filter_named_locations filename data).original_file = filename
    ∧ (filter_unnamed_locations filename data).original_file = filename
    ∧ (filter_named_locations filename data).filter_type = "named_only"
    ∧ (filter_unnamed_locations filename data).filter_type = "unnamed_only"
    ∧ (filter_named_locations filename data).original_count = data.elements.length
    ∧ (filter_unnamed_locations filename data).original_count = data.elements.length
    ∧ (filter_named_locations filename data).filtered_count =
        (filter_named_locations filename data).elements.length
    ∧ (filter_unnamed_locations filename data).filtered_count =
        (filter_unnamed_locations filename data).elements.length := by
  refine ⟨?_, ?_, List.filter_sublist _, List.filter_sublist _,
    rfl, rfl, rfl, rfl, rfl, rfl, rfl, rfl⟩
  · intro e
    show e ∈ data.elements.filter (fun e => hasTagsWithName e) ↔ _
    rw [List.mem_filter]
    exact and_congr_right (fun _ => hasTagsWithName_iff e)
  · intro e
    show e ∈ data.elements.filter (fun e => lacksTagsOrName e) ↔ _
    rw [List.mem_filter]
    exact and_congr_right (fun _ => lacksTagsOrName_iff e)

/-- C8 (spec-modelled): the statistics operation returns the total element
count as `total_elements` and, as `elements_with_names`, the number of
elements whose "name" tag is present and non-empty. -/
theorem c8_statistics (data : InputData) :
    (get_statistics data).1 = data.elements.length
    ∧ (get_statistics data).2 =
        (data.elements.filter (fun e => nameTagNonEmpty e)).length
    ∧ ∀ e, nameTagNonEmpty e = true ↔ NameNonEmpty e :=
  ⟨rfl, rfl, fun e => nameTagNonEmpty_iff e⟩

/-- C9: directory-wide counting records a per-file count for every file in
order, a file that fails to parse gets entry 0, the total is the sum of
the per-file counts and equals the sum over only the files that parse, and
the operation is total (never raises). -/
theorem c9_count_objects_malformed_tolerant
    (raw filtered : List (String × FileContent)) :
    (count_objects raw filtered).1.total_objects
        = (raw.map (fun f => fileCount f.2)).sum
    ∧ (count_objects raw filtered).1.files
        = raw.map (fun f => (f.1, fileCount f.2))
    ∧ (count_objects raw filtered).1.total_objects
        = ((raw.filter (fun f =>
            match f.2 with
            | FileContent.malformed => false
            | FileContent.parsed _ => true)).map (fun f => fileCount f.2)).sum
    ∧ ∀ name, (name, FileContent.malformed) ∈ raw →
        (name, 0) ∈ (count_objects raw filtered).1.files := by
  have hspec : (count_objects raw filtered).1 =
      ⟨(raw.map (fun f => fileCount f.2)).sum,
       raw.map (fun f => (f.1, fileCount f.2))⟩ := by
    show countDirLoop raw ⟨0, []⟩ = _
    rw [countDirLoop_spec]
    simp
  refine ⟨by rw [hspec], by rw [hspec], ?_, ?_⟩
  · rw [hspec]
    exact sum_fileCount_parsed_only raw
  · intro name hmem
    rw [hspec]
    show (name, 0) ∈ raw.map (fun f => (f.1, fileCount f.2))
    exact List.mem_map.mpr ⟨(name, FileContent.malformed), hmem, rfl⟩

/-- C10: a file that parses to a JSON object without an "elements" key gets
a per-file count of 0, contributes nothing to the directory total, and the
counting does not raise. -/
theorem c10_count_objects_no_elements_key
    (raw1 raw2 filtered : List (String × FileContent)) (name : String) :
    (count_objects (raw1 ++ (name, FileContent.parsed ⟨none⟩) :: raw2)
        filtered).1.files
      = (count_objects raw1 filtered).1.files ++ (name, 0) ::
        (count_objects raw2 filtered).1.files
    ∧ (count_objects (raw1 ++ (name, FileContent.parsed ⟨none⟩) :: raw2)
        filtered).1.total_objects
      = (count_objects (raw1 ++ raw2) filtered).1.total_objects := by
  constructor
  · show (countDirLoop _ ⟨0, []⟩).files =
      (countDirLoop _ ⟨0, []⟩).files ++ (name, 0) :: (countDirLoop _ ⟨0, []⟩).files
    rw [countDirLoop_spec, countDirLoop_spec, countDirLoop_spec]
    simp [fileCount]
  · show (countDirLoop _ ⟨0, []⟩).total_objects =
      (countDirLoop _ ⟨0, []⟩).total_objects
    rw [countDirLoop_spec, countDirLoop_spec]
    simp [fileCount]

/-- C3: with the source defaults (retries 3, delay 5): at most 3 requests
are issued per tile fetch; the delays slept are exactly the flat delay 5,
one between each pair of consecutive attempts; if the attempts before k
fail at transport level and attempt k succeeds within the budget, the
parsed data is returned after k + 1 requests with no failure surfaced; and
the transport failure propagates to the caller if and only if all 3
attempts fail. -/
theorem c3_retry_policy (oracle : Nat → AttemptOutcome) :
    (fetch_with_progress oracle 3 5).2.1 ≤ 3
    ∧ (fetch_with_progress oracle 3 5).2.2 =
        List.replicate ((fetch_with_progress oracle 3 5).2.1 - 1) 5
    ∧ (∀ k doc, k < 3 → (∀ j, j < k → oracle j = .transportError) →
        oracle k = .success doc →
        fetch_with_progress oracle 3 5 = (.ok doc, k + 1, List.replicate k 5))
    ∧ ((fetch_with_progress oracle 3 5).1 = .requestException ↔
        ∀ j, j < 3 → oracle j = .transportError) := by
  refine ⟨?_, ?_, ?_, ?_⟩
  · have h := fetchGo_requests_le oracle 5 (List.range 3)
    rwa [List.length_range] at h
  · exact fetchGo_sleeps oracle 5 (List.range 3)
  · intro k doc hk hprev hsucc
    show fetchGo oracle 5 (List.range 3) = (.ok doc, k + 1, List.replicate k 5)
    rw [show List.range 3 = [0, 1, 2] from rfl]
    interval_cases k
    · simpa using fetchGo_success oracle 5 doc [] 0 [1, 2]
        (fun j hj => absurd hj (by simp)) hsucc
    · simpa using fetchGo_success oracle 5 doc [0] 1 [2]
        (fun j hj => by
          rcases List.mem_singleton.mp hj with rfl
          exact hprev 0 (by omega)) hsucc
    · simpa using fetchGo_success oracle 5 doc [0, 1] 2 []
        (fun j hj => by
          rcases List.mem_cons.mp hj with rfl | hj2
          · exact hprev 0 (by omega)
          · rcases List.mem_singleton.mp hj2 with rfl
            exact hprev 1 (by omega)) hsucc
  · constructor
    · intro hres j hj
      exact fetchGo_reqExn_inv oracle 5 (List.range 3) hres j (List.mem_range.mpr hj)
    · intro hall
      have h := fetchGo_allFail oracle 5 (List.range 3) (by simp)
        (fun j hj => hall j (List.mem_range.mp hj))
      show (fetchGo oracle 5 (List.range 3)).1 = .requestException
      rw [h]

/-- C4 counterexample: the claim says a body that fails to parse is treated
identically to a transport failure (retried with the same delay up to the
attempt limit). With a malformed body on attempt 1 and a success available
on attempt 2, the code stops after a single request, propagating the parse
error with no retry and no delay, whereas the same scenario with a
transport failure on attempt 1 retries and succeeds on attempt 2 after one
5-unit delay. -/
theorem c4_counterexample :
    fetch_with_progress c4MalOracle 3 5 = (.jsonError, 1, [])
    ∧ fetch_with_progress c4TransportOracle 3 5 = (.ok ⟨some []⟩, 2, [5]) := by
  constructor <;> rfl

/-- C4 (amended): a response body that is received completely but fails to
parse as JSON is NOT retried: after transport failures on the attempts
before k and a malformed body on attempt k, the parse error propagates
immediately out of fetch_with_progress after k + 1 requests, with no
further attempts and no delay beyond the k already incurred; only
transport-level failures are retried. -/
theorem c4_malformed_body_propagates (oracle : Nat → AttemptOutcome) (k : Nat)
    (hk : k < 3) (hprev : ∀ j, j < k → oracle j = .transportError)
    (hmal : oracle k = .malformedBody) :
    fetch_with_progress oracle 3 5 = (.jsonError, k + 1, List.replicate k 5) := by
  show fetchGo oracle 5 (List.range 3) = _
  rw [show List.range 3 = [0, 1, 2] from rfl]
  interval_cases k
  · simpa using fetchGo_malformed oracle 5 [] 0 [1, 2]
      (fun j hj => absurd hj (by simp)) hmal
  · simpa using fetchGo_malformed oracle 5 [0] 1 [2]
      (fun j hj => by
        rcases List.mem_singleton.mp hj with rfl
        exact hprev 0 (by omega)) hmal
  · simpa using fetchGo_malformed oracle 5 [0, 1] 2 []
      (fun j hj => by
        rcases List.mem_cons.mp hj with rfl | hj2
        · exact hprev 0 (by omega)
        · rcases List.mem_singleton.mp hj2 with rfl
          exact hprev 1 (by omega)) hmal

/-- C4 witness: the amended theorem applied to the oracle whose first
attempt returns a malformed body. -/
theorem c4_malformed_body_propagates_witness :
    (0 : Nat) < 3
    ∧ c4WitnessOracle 0 = .malformedBody
    ∧ fetch_with_progress c4WitnessOracle 3 5 = (.jsonError, 0 + 1, List.replicate 0 5) :=
  ⟨by omega, rfl,
   c4_malformed_body_propagates c4WitnessOracle 0 (by omega)
     (fun j hj => absurd hj (by omega)) rfl⟩

/-- C2: on a cache miss for a known region, fetch_data completes
successfully whatever the network does: each tile contributes its elements
when its fetch succeeds within the retry budget and is skipped (its
elements omitted) when it fails, tiles processed in configuration order;
the resulting partial accumulation is serialized, written to the cache
under the key, and returned. -/
theorem c2_failed_tile_skipped (net : Network)
    (node_type area_name date cache_dir : String) (cache : Cache)
    (subs : List Subarea)
    (hmiss : cache.lookup (cacheKey cache_dir node_type area_name date) = none)
    (harea : get_subareas area_name = .ok subs) :
    ∃ n, fetch_data net node_type area_name date cache_dir cache =
      ⟨.ok (dumpsCombined (specSkipFailedTiles net node_type subs)),
       (cacheKey cache_dir node_type area_name date,
        dumpsCombined (specSkipFailedTiles net node_type subs)) :: cache, n⟩ := by
  refine ⟨(fetchTiles net node_type subs).2, ?_⟩
  rw [← fetchTiles_spec net node_type subs]
  simp only [fetch_data]
  rw [hmiss, harea]

set_option maxRecDepth 4000 in
/-- C2 witness: on the empty cache, fetching hospitals for northern europe
over a network where the second tile always fails at transport level: the
failed tile contributes nothing and the three others one element each. -/
theorem c2_failed_tile_skipped_witness :
    ([] : Cache).lookup (cacheKey "data_cache" "hospital" "northern_europe" "20250224") = none
    ∧ get_subareas "northern_europe" =
        .ok [(55, 4, 63, 18), (63, 4, 71, 18), (55, 18, 63, 32), (63, 18, 71, 32)]
    ∧ specSkipFailedTiles c2Net "hospital"
        [(55, 4, 63, 18), (63, 4, 71, 18), (55, 18, 63, 32), (63, 18, 71, 32)]
        = [c2Elem, c2Elem, c2Elem]
    ∧ ∃ n, fetch_data c2Net "hospital" "northern_europe" "20250224" "data_cache" [] =
      ⟨.ok (dumpsCombined (specSkipFailedTiles c2Net "hospital"
          [(55, 4, 63, 18), (63, 4, 71, 18), (55, 18, 63, 32), (63, 18, 71, 32)])),
       (cacheKey "data_cache" "hospital" "northern_europe" "20250224",
        dumpsCombined (specSkipFailedTiles c2Net "hospital"
          [(55, 4, 63, 18), (63, 4, 71, 18), (55, 18, 63, 32), (63, 18, 71, 32)])) :: [], n⟩ :=
  ⟨rfl, rfl, by decide,
   c2_failed_tile_skipped c2Net "hospital" "northern_europe" "20250224" "data_cache" []
     [(55, 4, 63, 18), (63, 4, 71, 18), (55, 18, 63, 32), (63, 18, 71, 32)] rfl rfl⟩

/-- C5: the cache filename is the pure function cacheKey of the feature
type, region and date; for a known region the first call returns some
string s and records exactly s in the cache under the key, and a second
call the same day with identical arguments, over any network state,
returns the same s (byte-identical), leaves the cache unchanged and issues
zero network requests. -/
theorem c5_cache_key_purity (net net2 : Network)
    (node_type area_name date cache_dir : String) (cache : Cache)
    (harea : (areas.lookup area_name).isSome = true) :
    ∃ s, (fetch_data net node_type area_name date cache_dir cache).result = .ok s
    ∧ (fetch_data net node_type area_name date cache_dir cache).cache.lookup
        (cacheKey cache_dir node_type area_name date) = some s
    ∧ fetch_data net2 node_type area_name date cache_dir
        (fetch_data net node_type area_name date cache_dir cache).cache =
      ⟨.ok s, (fetch_data net node_type area_name date cache_dir cache).cache, 0⟩ := by
  cases hlk : cache.lookup (cacheKey cache_dir node_type area_name date) with
  | some contents =>
    have h1 : fetch_data net node_type area_name date cache_dir cache =
        ⟨.ok contents, cache, 0⟩ := by
      simp only [fetch_data]
      rw [hlk]
    have h2 : fetch_data net2 node_type area_name date cache_dir cache =
        ⟨.ok contents, cache, 0⟩ := by
      simp only [fetch_data]
      rw [hlk]
    exact ⟨contents, by rw [h1], by rw [h1]; exact hlk, by rw [h1]; exact h2⟩
  | none =>
    obtain ⟨a, ha⟩ := Option.isSome_iff_exists.mp harea
    have hsubs : get_subareas area_name = .ok a.2 := by
      simp only [get_subareas]
      rw [ha]
    have h1 : fetch_data net node_type area_name date cache_dir cache =
        ⟨.ok (dumpsCombined (fetchTiles net node_type a.2).1),
         (cacheKey cache_dir node_type area_name date,
          dumpsCombined (fetchTiles net node_type a.2).1) :: cache,
         (fetchTiles net node_type a.2).2⟩ := by
      simp only [fetch_data]
      rw [hlk, hsubs]
    have hlk2 : ((cacheKey cache_dir node_type area_name date,
        dumpsCombined (fetchTiles net node_type a.2).1) :: cache).lookup
        (cacheKey cache_dir node_type area_name date)
        = some (dumpsCombined (fetchTiles net node_type a.2).1) := by
      simp [List.lookup]
    have h2 : fetch_data net2 node_type area_name date cache_dir
        ((cacheKey cache_dir node_type area_name date,
          dumpsCombined (fetchTiles net node_type a.2).1) :: cache) =
        ⟨.ok (dumpsCombined (fetchTiles net node_type a.2).1),
         (cacheKey cache_dir node_type area_name date,
          dumpsCombined (fetchTiles net node_type a.2).1) :: cache, 0⟩ := by
      simp only [fetch_data]
      rw [hlk2]
    exact ⟨dumpsCombined (fetchTiles net node_type a.2).1,
      by rw [h1], by rw [h1]; exact hlk2, by rw [h1]; exact h2⟩

/-- C5 witness: two same-day park fetches for central europe starting from
the empty cache. -/
theorem c5_cache_key_purity_witness :
    (areas.lookup "central_europe").isSome = true
    ∧ ∃ s, (fetch_data c5Net "park" "central_europe" "20250224" "data_cache" []).result = .ok s
    ∧ (fetch_data c5Net "park" "central_europe" "20250224" "data_cache" []).cache.lookup
        (cacheKey "data_cache" "park" "central_europe" "20250224") = some s
    ∧ fetch_data c5Net "park" "central_europe" "20250224" "data_cache"
        (fetch_data c5Net "park" "central_europe" "20250224" "data_cache" []).cache =
      ⟨.ok s, (fetch_data c5Net "park" "central_europe" "20250224" "data_cache" []).cache, 0⟩ :=
  ⟨rfl, c5_cache_key_purity c5Net c5Net "park" "central_europe" "20250224" "data_cache" [] rfl⟩

/-- C7 counterexample: with a pre-existing cache file whose name matches
the key for the unknown region "atlantis", fetch_data returns the cached
contents successfully instead of failing: the cache-file check precedes
region validation, so the call does not fail with the unknown-area error. -/
theorem c7_counterexample :
    areas.lookup "atlantis" = none
    ∧ fetch_data c7Net "hospital" "atlantis" "20250224" "data_cache" c7Cache =
        ⟨.ok "cached-text", c7Cache, 0⟩ :=
  ⟨rfl, rfl⟩

/-- C7 (amended): when no cache file exists for the computed key, a
fetch_data call with an unknown region fails with the ValueError whose
message contains every configured region name, leaves the cache unchanged
and issues no network request. -/
theorem c7_unknown_region_error (net : Network)
    (node_type area_name date cache_dir : String) (cache : Cache)
    (hmiss : cache.lookup (cacheKey cache_dir node_type area_name date) = none)
    (hunk : areas.lookup area_name = none) :
    ∃ msg, fetch_data net node_type area_name date cache_dir cache =
        ⟨.error msg, cache, 0⟩
      ∧ ∀ nm ∈ areas.map Prod.fst, ∃ pre post, pre ++ nm.data ++ post = msg.data := by
  refine ⟨"Unknown area: " ++ area_name ++ ". Available areas: " ++ availableAreasMsg,
    ?_, ?_⟩
  · simp only [fetch_data]
    rw [hmiss]
    simp only [get_subareas]
    rw [hunk]
  · intro nm hnm
    have hinf : nm.data <:+: availableAreasMsg.data := by
      rw [show areas.map Prod.fst =
        ["northern_europe", "central_europe", "southern_europe"] from rfl] at hnm
      simp only [List.mem_cons, List.not_mem_nil, or_false] at hnm
      rcases hnm with rfl | rfl | rfl
      · decide
      · decide
      · decide
    obtain ⟨p, q, hpq⟩ := hinf
    refine ⟨("Unknown area: " ++ area_name ++ ". Available areas: ").data ++ p, q, ?_⟩
    have hmsg : ("Unknown area: " ++ area_name ++ ". Available areas: "
        ++ availableAreasMsg).data
        = ("Unknown area: " ++ area_name ++ ". Available areas: ").data
          ++ availableAreasMsg.data :=
      String.data_append _ _
    rw [hmsg, ← hpq]
    simp [List.append_assoc]

/-- C7 witness: the amended theorem at the unknown region "atlantis" with
an empty cache. -/
theorem c7_unknown_region_error_witness :
    ([] : Cache).lookup (cacheKey "data_cache" "hospital" "atlantis" "20250224") = none
    ∧ areas.lookup "atlantis" = none
    ∧ ∃ msg, fetch_data c7Net "hospital" "atlantis" "20250224" "data_cache" [] =
        ⟨.error msg, [], 0⟩
      ∧ ∀ nm ∈ areas.map Prod.fst, ∃ pre post, pre ++ nm.data ++ post = msg.data :=
  ⟨rfl, rfl,
   c7_unknown_region_error c7Net "hospital" "atlantis" "20250224" "data_cache" [] rfl rfl⟩

end LocationFetcher
